import Mathlib

/-!
Verification of the block-construction program in `src/index.js`
(Summer of Bitcoin 2024 challenge solution).

The development shallowly embeds the program: JavaScript numbers that only
ever hold exact integers are modelled as `Nat`/`Int`; `Buffer`s are
`List Nat` of byte values; hex strings are `String`; the unbounded
`do/while` and recursive merkle reduction are modelled with explicit fuel.
IEEE-754 binary64 rounding of JavaScript numbers is not modelled: every
quantity evaluated by a theorem below stays far below 2^53 or is compared
through the exact-integer model where rounding cannot change the verdict
(this is noted where relevant).
-/

set_option maxRecDepth 100000

/-! ## Bytes and hex encodings -/

/-- Value of a hexadecimal digit character; `none` for a non-hex character.
Mirrors the character classes Node's `Buffer.from(s, "hex")` accepts. -/
def hexVal (c : Char) : Option Nat :=
  if '0' ≤ c ∧ c ≤ '9' then some (c.toNat - 48)
  else if 'a' ≤ c ∧ c ≤ 'f' then some (c.toNat - 87)
  else if 'A' ≤ c ∧ c ≤ 'F' then some (c.toNat - 55)
  else none

/-- Node `Buffer.from(string, "hex")` semantics on a character list:
decode complete two-character pairs left to right, stopping at the first
pair containing a non-hex character; a trailing lone character is dropped. -/
def hexDecodeChars : List Char → List Nat
  | c1 :: c2 :: rest =>
    match hexVal c1, hexVal c2 with
    | some hi, some lo => (16 * hi + lo) :: hexDecodeChars rest
    | _, _ => []
  | _ => []

/-- Node `Buffer.from(s, "hex")` as a byte list. -/
def hexDecode (s : String) : List Nat := hexDecodeChars s.toList

/-- Lowercase hex digit for a value below 16. -/
def hexChar (n : Nat) : Char :=
  if n < 10 then Char.ofNat (48 + n) else Char.ofNat (87 + n)

/-- Lowercase hex rendering of a byte list (Node `digest("hex")`). -/
def bytesToHex (bs : List Nat) : String :=
  String.mk (bs.foldr (fun b acc => hexChar (b / 16 % 16) :: hexChar (b % 16) :: acc) [])

/-- Big-endian byte rendering of `n` on `len` bytes. -/
def natToBytesBE : Nat → Nat → List Nat
  | 0, _ => []
  | len + 1, n => natToBytesBE len (n / 256) ++ [n % 256]

/-- UTF-8 encoding of one character (code points are valid scalars). -/
def charUtf8 (c : Char) : List Nat :=
  let n := c.toNat
  if n < 128 then [n]
  else if n < 2048 then [192 + n / 64, 128 + n % 64]
  else if n < 65536 then [224 + n / 4096, 128 + n / 64 % 64, 128 + n % 64]
  else [240 + n / 262144, 128 + n / 4096 % 64, 128 + n / 64 % 64, 128 + n % 64]

/-- UTF-8 bytes of a string (Node's default `hash.update(string)` encoding). -/
def utf8Bytes (s : String) : List Nat := (s.toList.map charUtf8).flatten

/-! ## SHA-256 (FIPS 180-4), executable over byte lists -/

/-- 2^32, the word modulus. -/
def M32 : Nat := 4294967296

/-- Truncate to a 32-bit word. -/
def w32 (x : Nat) : Nat := x % M32

/-- Right rotation of a 32-bit word. -/
def rotr32 (n x : Nat) : Nat := w32 ((x >>> n) ||| (x <<< (32 - n)))

/-- SHA-256 `Ch` function. -/
def shaCh (e f g : Nat) : Nat := (e &&& f) ^^^ ((e ^^^ 4294967295) &&& g)

/-- SHA-256 `Maj` function. -/
def shaMaj (a b c : Nat) : Nat := (a &&& b) ^^^ (a &&& c) ^^^ (b &&& c)

/-- SHA-256 Σ₀. -/
def bigSigma0 (x : Nat) : Nat := rotr32 2 x ^^^ rotr32 13 x ^^^ rotr32 22 x

/-- SHA-256 Σ₁. -/
def bigSigma1 (x : Nat) : Nat := rotr32 6 x ^^^ rotr32 11 x ^^^ rotr32 25 x

/-- SHA-256 σ₀. -/
def smallSigma0 (x : Nat) : Nat := rotr32 7 x ^^^ rotr32 18 x ^^^ (x >>> 3)

/-- SHA-256 σ₁. -/
def smallSigma1 (x : Nat) : Nat := rotr32 17 x ^^^ rotr32 19 x ^^^ (x >>> 10)

/-- The 64 SHA-256 round constants (FIPS 180-4 §4.2.2), in decimal. -/
def shaK : List Nat :=
  [1116352408, 1899447441, 3049323471, 3921009573,
   961987163, 1508970993, 2453635748, 2870763221,
   3624381080, 310598401, 607225278, 1426881987,
   1925078388, 2162078206, 2614888103, 3248222580,
   3835390401, 4022224774, 264347078, 604807628,
   770255983, 1249150122, 1555081692, 1996064986,
   2554220882, 2821834349, 2952996808, 3210313671,
   3336571891, 3584528711, 113926993, 338241895,
   666307205, 773529912, 1294757372, 1396182291,
   1695183700, 1986661051, 2177026350, 2456956037,
   2730485921, 2820302411, 3259730800, 3345764771,
   3516065817, 3600352804, 4094571909, 275423344,
   430227734, 506948616, 659060556, 883997877,
   958139571, 1322822218, 1537002063, 1747873779,
   1955562222, 2024104815, 2227730452, 2361852424,
   2428436474, 2756734187, 3204031479, 3329325298]

/-- SHA-256 working state / chaining value: eight 32-bit words. -/
structure Sha8 where
  a : Nat
  b : Nat
  c : Nat
  d : Nat
  e : Nat
  f : Nat
  g : Nat
  h : Nat
deriving Repr, DecidableEq

/-- SHA-256 initial hash value (FIPS 180-4 §5.3.3), in decimal. -/
def sha256Init : Sha8 :=
  ⟨1779033703, 3144134277, 1013904242, 2773480762,
   1359893119, 2600822924, 528734635, 1541459225⟩

/-- One SHA-256 compression round on state `s` with round constant and
schedule word `kw`. -/
def shaRound (s : Sha8) (kw : Nat × Nat) : Sha8 :=
  let t1 := w32 (s.h + bigSigma1 s.e + shaCh s.e s.f s.g + kw.1 + kw.2)
  let t2 := w32 (bigSigma0 s.a + shaMaj s.a s.b s.c)
  ⟨w32 (t1 + t2), s.a, s.b, s.c, w32 (s.d + t1), s.e, s.f, s.g⟩

/-- Group bytes into big-endian 32-bit words. -/
def bytesToWords : List Nat → List Nat
  | b0 :: b1 :: b2 :: b3 :: rest =>
    (b0 * 16777216 + b1 * 65536 + b2 * 256 + b3) :: bytesToWords rest
  | _ => []

/-- Extend a message schedule by `n` further words. -/
def extendW : List Nat → Nat → List Nat
  | w, 0 => w
  | w, n + 1 =>
    let i := w.length
    let next := w32 (smallSigma1 (w.getD (i - 2) 0) + w.getD (i - 7) 0 +
      smallSigma0 (w.getD (i - 15) 0) + w.getD (i - 16) 0)
    extendW (w ++ [next]) n

/-- SHA-256 compression of one 64-byte block into the chaining value. -/
def shaCompress (st : Sha8) (block : List Nat) : Sha8 :=
  let ws := extendW (bytesToWords block) 48
  let r := (shaK.zip ws).foldl shaRound st
  ⟨w32 (st.a + r.a), w32 (st.b + r.b), w32 (st.c + r.c), w32 (st.d + r.d),
   w32 (st.e + r.e), w32 (st.f + r.f), w32 (st.g + r.g), w32 (st.h + r.h)⟩

/-- MD-style padding: `0x80`, zeros to 56 mod 64, then the 64-bit
big-endian bit length. -/
def sha256Pad (msg : List Nat) : List Nat :=
  msg ++ 0x80 :: List.replicate ((119 - msg.length % 64) % 64) 0 ++ natToBytesBE 8 (8 * msg.length)

/-- Split a byte list into blocks: `acc` holds the current block reversed,
`k` the remaining capacity of the current block. -/
def chunksAux : List Nat → List Nat → Nat → List (List Nat)
  | [], acc, _ => if acc.isEmpty then [] else [acc.reverse]
  | b :: bs, acc, k =>
    if k ≤ 1 then (b :: acc).reverse :: chunksAux bs [] 64
    else chunksAux bs (b :: acc) (k - 1)

/-- Split a byte list into 64-byte blocks. -/
def toBlocks (bs : List Nat) : List (List Nat) := chunksAux bs [] 64

/-- SHA-256 of a byte list, as the 32-byte digest. -/
def sha256 (msg : List Nat) : List Nat :=
  let st := (toBlocks (sha256Pad msg)).foldl shaCompress sha256Init
  natToBytesBE 4 st.a ++ natToBytesBE 4 st.b ++ natToBytesBE 4 st.c ++ natToBytesBE 4 st.d ++
  natToBytesBE 4 st.e ++ natToBytesBE 4 st.f ++ natToBytesBE 4 st.g ++ natToBytesBE 4 st.h

/-! ## Data model

The transaction shape of spec §3, restricted to the fields `src/index.js`
reads or constructs.  A JavaScript property that may be absent is an
`Option`; `none` models `undefined`. -/

/-- The `prevout` record of a transaction input (spec §3 Input). -/
structure Prevout where
  txid : Option String
  scriptpubkey_type : Option String
  scriptpubkey_address : Option String
  value : Option Int
deriving Repr, DecidableEq

/-- A transaction input: the program only ever reads `input.prevout`. -/
structure Input where
  prevout : Option Prevout
deriving Repr, DecidableEq

/-- A transaction output (spec §3 Output). -/
structure Output where
  scriptpubkey : Option String
  scriptpubkey_asm : Option String
  scriptpubkey_type : Option String
  scriptpubkey_address : Option String
  value : Option Int
deriving Repr, DecidableEq

/-- A transaction (spec §3). `vin`/`vout` model `transaction.vin || []`:
an absent array is the empty list. -/
structure Transaction where
  version : Int
  locktime : Int
  vin : List Input
  vout : List Output
deriving Repr, DecidableEq

/-- A block header (spec §3 BlockHeader); `version`, `timestamp`, `nonce`
are the non-negative integers the program stores there. -/
structure BlockHeader where
  version : Nat
  prevBlockHash : String
  merkleRoot : String
  timestamp : Nat
  bits : String
  nonce : Nat
deriving Repr, DecidableEq

/-! ## JSON serialization (`JSON.stringify` on the model) -/

/-- `JSON.stringify` escaping of one string character. -/
def jsonEscapeChar (c : Char) : List Char :=
  if c = '"' then ['\\', '"']
  else if c = '\\' then ['\\', '\\']
  else if c = '\n' then ['\\', 'n']
  else if c = '\r' then ['\\', 'r']
  else if c = '\t' then ['\\', 't']
  else if c.toNat = 8 then ['\\', 'b']
  else if c.toNat = 12 then ['\\', 'f']
  else if c.toNat < 32 then ['\\', 'u', '0', '0', hexChar (c.toNat / 16), hexChar (c.toNat % 16)]
  else [c]

/-- A JSON string literal. -/
def jsonString (s : String) : String :=
  "\"" ++ String.mk ((s.toList.map jsonEscapeChar).flatten) ++ "\""

/-- A JSON object from present fields, in insertion order; a `none`
(JavaScript `undefined`) property is omitted, as `JSON.stringify` does. -/
def jsonObject (fields : List (String × Option String)) : String :=
  "\x7b" ++
    String.intercalate "," (fields.filterMap (fun f => f.2.map (fun v => jsonString f.1 ++ ":" ++ v))) ++
    "\x7d"

/-- A JSON array. -/
def jsonArray (elems : List String) : String := "[" ++ String.intercalate "," elems ++ "]"

/-- Serialization of a `prevout` record. -/
def stringifyPrevout (p : Prevout) : String :=
  jsonObject [("txid", p.txid.map jsonString),
    ("scriptpubkey_type", p.scriptpubkey_type.map jsonString),
    ("scriptpubkey_address", p.scriptpubkey_address.map jsonString),
    ("value", p.value.map toString)]

/-- Serialization of an input. -/
def stringifyInput (i : Input) : String :=
  jsonObject [("prevout", i.prevout.map stringifyPrevout)]

/-- Serialization of an output. -/
def stringifyOutput (o : Output) : String :=
  jsonObject [("scriptpubkey", o.scriptpubkey.map jsonString),
    ("scriptpubkey_asm", o.scriptpubkey_asm.map jsonString),
    ("scriptpubkey_type", o.scriptpubkey_type.map jsonString),
    ("scriptpubkey_address", o.scriptpubkey_address.map jsonString),
    ("value", o.value.map toString)]

/-- `getTransactionString` (src/index.js:254-256): `JSON.stringify(transaction)`. -/
def getTransactionString (t : Transaction) : String :=
  jsonObject [("version", some (toString t.version)), ("locktime", some (toString t.locktime)),
    ("vin", some (jsonArray (t.vin.map stringifyInput))),
    ("vout", some (jsonArray (t.vout.map stringifyOutput)))]

/-! ## Transaction validator (src/index.js:129-177) -/

/-- The empty object substituted by `input.prevout || {}`. -/
def defaultPrevout : Prevout := ⟨none, none, none, none⟩

/-- JavaScript `s.startsWith(pre)`, as a character-list prefix test. -/
def strStartsWith (s pre : String) : Bool := pre.toList.isPrefixOf s.toList

/-- The three checks of the input loop (src/index.js:135-151); the `|| default`
reads coincide with `Option.getD` because the JavaScript falsy values
(`undefined`, `""`, `0`) map to the same defaults. -/
def checkInput (input : Input) : Bool :=
  let prevout := input.prevout.getD defaultPrevout
  let typ := prevout.scriptpubkey_type.getD ""
  let addr := prevout.scriptpubkey_address.getD ""
  let value := prevout.value.getD 0
  (typ = "v0_p2wpkh" || typ = "v1_p2tr") && strStartsWith addr "bc1" && !(decide (value ≤ 0))

/-- The three checks of the output loop (src/index.js:154-169). -/
def checkOutput (output : Output) : Bool :=
  let typ := output.scriptpubkey_type.getD ""
  let addr := output.scriptpubkey_address.getD ""
  let value := output.value.getD 0
  (typ = "v0_p2wpkh" || typ = "v1_p2tr") && strStartsWith addr "bc1" && !(decide (value ≤ 0))

/-- `validateTransaction` (src/index.js:129-177): the early-return loops are
the conjunction of the per-element checks; nothing in the model throws, so
the `catch` branch is unreachable. -/
def validateTransaction (t : Transaction) : Bool :=
  t.vin.all checkInput && t.vout.all checkOutput

/-- The driver's filter (src/index.js:19-24). -/
def validTransactions (txs : List Transaction) : List Transaction :=
  txs.filter (fun t => validateTransaction t)

/-! ## Fee accountant (src/index.js:32-40)

JavaScript `totalFees += input.prevout.value` on a missing `prevout` or
missing `value` poisons the accumulator (TypeError or NaN); both are
modelled by `none`, which is absorbing for `jsAdd`/`jsSub`. -/

/-- Addition with an absorbing undefined/NaN. -/
def jsAdd (a b : Option Int) : Option Int :=
  match a, b with
  | some x, some y => some (x + y)
  | _, _ => none

/-- Subtraction with an absorbing undefined/NaN. -/
def jsSub (a b : Option Int) : Option Int :=
  match a, b with
  | some x, some y => some (x - y)
  | _, _ => none

/-- `input.prevout.value` as read by the fee loop. -/
def inputVal (i : Input) : Option Int := i.prevout.bind (fun p => p.value)

/-- One iteration of the outer `forEach`: add every input value, then
subtract every output value (src/index.js:33-40). -/
def addTxFees (acc : Option Int) (t : Transaction) : Option Int :=
  t.vout.foldl (fun a o => jsSub a o.value) (t.vin.foldl (fun a i => jsAdd a (inputVal i)) acc)

/-- The global running accumulator `totalFees`, starting at 0. -/
def totalFeesOf (ts : List Transaction) : Option Int := ts.foldl addTxFees (some 0)

/-! ## Coinbase builder (src/index.js:61-79) -/

/-- The synthetic `prevout` of the coinbase input: all-zero txid and
`2500000 + totalFees` (src/index.js:65-68). -/
def coinbasePrevout (totalFees : Int) : Prevout :=
  { txid := some "0000000000000000000000000000000000000000000000000000000000000000"
    scriptpubkey_type := none
    scriptpubkey_address := none
    value := some (2500000 + totalFees) }

/-- The fixed, hardcoded recipient output of the coinbase
(src/index.js:70-78), paying value 0. -/
def coinbaseOutput : Output :=
  { scriptpubkey := some "76a9146085312a9c500ff9cc35b571b0a1e5efb7fb9f1688ac"
    scriptpubkey_asm := some "OP_DUP OP_HASH160 OP_PUSHBYTES_20 6085312a9c500ff9cc35b571b0a1e5efb7fb9f16 OP_EQUALVERIFY OP_CHECKSIG"
    scriptpubkey_type := some "p2pkh"
    scriptpubkey_address := some "19oMRmCWMYuhnP5W61ABrjjxHc6RphZh11"
    value := some 0 }

/-- The coinbase transaction object literal (src/index.js:61-79),
parameterized by the accumulated `totalFees` it reads. -/
def coinbaseTransaction (totalFees : Int) : Transaction :=
  { version := 1
    locktime := 0
    vin := [{ prevout := some (coinbasePrevout totalFees) }]
    vout := [coinbaseOutput] }

/-! ## Merkle engine (src/index.js:185-210) -/

/-- The pair combination of the reduction loop (src/index.js:198-204):
concatenate the hex-decoded hashes and SHA-256 once, in hex. -/
def combineHash (hash1 hash2 : String) : String :=
  bytesToHex (sha256 (hexDecode hash1 ++ hexDecode hash2))

/-- One reduction level: the `for (i = 0; i < n; i += 2)` loop.  The JS
`hashes[i + 1] || hash1` pairs a lone (or falsy, i.e. empty-string) right
element with the left one. -/
def merkleLevel : List String → List String
  | [] => []
  | [h] => [combineHash h h]
  | h1 :: h2 :: rest => combineHash h1 (if h2 = "" then h1 else h2) :: merkleLevel rest

/-- The recursive `merkleRoot` function with explicit fuel: the source
recurses unconditionally until a level of length one is reached, which
never happens starting from the empty list. -/
def merkleRootFuel : Nat → List String → Option String
  | _, [h] => some h
  | 0, _ => none
  | n + 1, hs => merkleRootFuel n (merkleLevel hs)

/-- `merkleRoot(hashes)`: fuel `hashes.length` suffices for every
non-empty list (proved below), so this is the source's recursion. -/
def merkleRootJS (hs : List String) : Option String := merkleRootFuel hs.length hs

/-- Leaf hashing (src/index.js:186-190): SHA-256 of `JSON.stringify(tx)`. -/
def leafHash (t : Transaction) : String := bytesToHex (sha256 (utf8Bytes (getTransactionString t)))

/-- `getMerkleRoot(transactions)` (src/index.js:185-210). -/
def getMerkleRoot (txs : List Transaction) : Option String := merkleRootJS (txs.map leafHash)

/-! ## Block header hashing and mining (src/index.js:105-109, 224-236) -/

/-- `Buffer.from(n.toString(), "hex")`: the decimal string of the number,
hex-decoded pairwise. -/
def decimalHexBytes (n : Nat) : List Nat := hexDecode (toString n)

/-- The concatenated header buffer (src/index.js:225-232). -/
def headerBuffer (h : BlockHeader) : List Nat :=
  decimalHexBytes h.version ++ hexDecode h.prevBlockHash ++ hexDecode h.merkleRoot ++
  decimalHexBytes h.timestamp ++ hexDecode h.bits ++ decimalHexBytes h.nonce

/-- `getBlockHash` (src/index.js:224-236): double SHA-256 of the header
buffer, rendered as hex. -/
def getBlockHash (h : BlockHeader) : String := bytesToHex (sha256 (sha256 (headerBuffer h)))

/-- `getBlockHeaderString` (src/index.js:244-246). -/
def getBlockHeaderString (h : BlockHeader) : String :=
  toString h.version ++ " " ++ h.prevBlockHash ++ " " ++ h.merkleRoot ++ " " ++
  toString h.timestamp ++ " " ++ h.bits ++ " " ++ toString h.nonce

/-- The numeric literal of the `while` condition (src/index.js:109): note
its 65 hex digits — one trailing zero more than the 64-digit `bits`
string, so it equals 16 times the value `bits` encodes.  `65535 * 2^228`
has 16 significant bits and is therefore exactly a binary64 value. -/
def TARGET : Nat := 0x0000ffff000000000000000000000000000000000000000000000000000000000

/-- JavaScript `ToNumber` on the strings `getBlockHash` can produce
(lowercase-hex alphabet `0-9a-f`): `none` is NaN; a digits-only string is
its decimal value; `<digits>e<digits>` is decimal scientific notation.
Values are kept exact; binary64 rounding of the parsed value is not
modelled — every theorem below evaluates this only where the string
contains a non-`e` letter (NaN) so rounding cannot matter. -/
def jsStringToNumber (s : String) : Option Nat :=
  let cs := s.toList
  if cs.all (fun c => '0' ≤ c && c ≤ '9') then
    some (cs.foldl (fun acc c => 10 * acc + (c.toNat - 48)) 0)
  else
    match cs.span (fun c => c != 'e') with
    | (mantissa, 'e' :: expo) =>
      if !mantissa.isEmpty && mantissa.all (fun c => '0' ≤ c && c ≤ '9') &&
          !expo.isEmpty && expo.all (fun c => '0' ≤ c && c ≤ '9') then
        some ((mantissa.foldl (fun acc c => 10 * acc + (c.toNat - 48)) 0) *
          10 ^ (expo.foldl (fun acc c => 10 * acc + (c.toNat - 48)) 0))
      else none
    | _ => none

/-- The loop condition `blockHash > 0x0000ffff...0`: the string operand is
coerced with `ToNumber`; a NaN comparison is false. -/
def jsMineCond (blockHash : String) : Bool :=
  match jsStringToNumber blockHash with
  | some v => TARGET < v
  | none => false

/-- The `do/while` mining loop (src/index.js:106-109) with fuel: hash the
header, increment the nonce, repeat while the coerced comparison holds.
Returns the mutated header and the last hash. -/
def mineFuel : Nat → BlockHeader → Option (BlockHeader × String)
  | 0, _ => none
  | n + 1, h =>
    let blockHash := getBlockHash h
    let h2 := { h with nonce := h.nonce + 1 }
    if jsMineCond blockHash then mineFuel n h2 else some (h2, blockHash)

/-! ## Report serializer (src/index.js:111-120) -/

/-- A filesystem write: `writeFileSync` truncates, `appendFileSync` appends. -/
inductive FileOp where
  | write (s : String)
  | append (s : String)
deriving Repr, DecidableEq

/-- Run file operations against a current file content. -/
def runFileOps : String → List FileOp → String
  | content, [] => content
  | _, FileOp.write s :: ops => runFileOps s ops
  | content, FileOp.append s :: ops => runFileOps (content ++ s) ops

/-- The write sequence of src/index.js:111-120: overwrite with the header
line, append the coinbase line, then append one line per valid transaction. -/
def outputFileOps (h : BlockHeader) (coinbase : Transaction) (valid : List Transaction) : List FileOp :=
  FileOp.write (getBlockHeaderString h ++ "\n") ::
  FileOp.append (getTransactionString coinbase ++ "\n") ::
  valid.map (fun t => FileOp.append (getTransactionString t ++ "\n"))

/-! ## Spec-side definitions

These follow the wording of the specification, to be compared with the
source embeddings above. -/

/-- Spec §4.5: the hash "compared as an unsigned big integer parsed from
its hex representation". -/
def hexToNat (s : String) : Nat :=
  s.toList.foldl (fun acc c => 16 * acc + (hexVal c).getD 0) 0

/-- The mining-loop continuation condition the spec states: full-width
integer comparison of the hash against the target. -/
def specMineCond (blockHash : String) : Bool := TARGET < hexToNat blockHash

/-- Claim C3's encoding convention, spelled from the spec: the integer is
converted to its base-10 string and that string is hex-decoded. -/
def specDecimalStringHexDecode (n : Nat) : List Nat := hexDecode (toString n)

/-- Claim C3's header hash, spelled from the spec: concatenate the six
encodings in order, hash twice with SHA-256, render as hex. -/
def specHeaderHash (h : BlockHeader) : String :=
  bytesToHex (sha256 (sha256 (
    specDecimalStringHexDecode h.version ++ hexDecode h.prevBlockHash ++ hexDecode h.merkleRoot ++
    specDecimalStringHexDecode h.timestamp ++ hexDecode h.bits ++ specDecimalStringHexDecode h.nonce)))

/-- Standard 4-byte little-endian integer encoding, which claim C3 states
the version/timestamp/nonce convention is *not*. -/
def le4Bytes (n : Nat) : List Nat := [n % 256, n / 256 % 256, n / 65536 % 256, n / 16777216 % 256]

/-- Σ input.prevout.value over the inputs of one transaction. -/
def txInSum (t : Transaction) : Int := (t.vin.map (fun i => (inputVal i).getD 0)).sum

/-- Σ output.value over the outputs of one transaction. -/
def txOutSum (t : Transaction) : Int := (t.vout.map (fun o => o.value.getD 0)).sum

/-- Spec §4.2: Σ input.prevout.value over all inputs of all transactions. -/
def sumInputValues (ts : List Transaction) : Int := (ts.map txInSum).sum

/-- Spec §4.2: Σ output.value over all outputs of all transactions. -/
def sumOutputValues (ts : List Transaction) : Int := (ts.map txOutSum).sum

/-- Claim C4's per-input predicate: accepted type, `bc1` address prefix,
strictly positive value, with absent fields defaulting as the claim states. -/
def specInputOk (i : Input) : Prop :=
  let p := i.prevout.getD defaultPrevout
  (p.scriptpubkey_type.getD "" = "v0_p2wpkh" ∨ p.scriptpubkey_type.getD "" = "v1_p2tr") ∧
  strStartsWith (p.scriptpubkey_address.getD "") "bc1" = true ∧
  0 < p.value.getD 0

/-- Claim C4's per-output predicate. -/
def specOutputOk (o : Output) : Prop :=
  (o.scriptpubkey_type.getD "" = "v0_p2wpkh" ∨ o.scriptpubkey_type.getD "" = "v1_p2tr") ∧
  strStartsWith (o.scriptpubkey_address.getD "") "bc1" = true ∧
  0 < o.value.getD 0

/-! ## Concrete fixtures -/

/-- A `v0_p2wpkh` prevout worth 10 at a `bc1` address. -/
def samplePrevoutA : Prevout :=
  { txid := some "01"
    scriptpubkey_type := some "v0_p2wpkh"
    scriptpubkey_address := some "bc1qaaaa"
    value := some 10 }

/-- A `v0_p2wpkh` output worth 4 at a `bc1` address. -/
def sampleOutputA : Output :=
  { scriptpubkey := some "0014aa"
    scriptpubkey_asm := some "OP_0"
    scriptpubkey_type := some "v0_p2wpkh"
    scriptpubkey_address := some "bc1qbbbb"
    value := some 4 }

/-- A transaction the validator accepts: fee 10 − 4 = 6. -/
def sampleTxA : Transaction :=
  { version := 2, locktime := 0, vin := [{ prevout := some samplePrevoutA }], vout := [sampleOutputA] }

/-- A `v1_p2tr` prevout worth 20 at a `bc1` address. -/
def samplePrevoutB : Prevout :=
  { txid := some "02"
    scriptpubkey_type := some "v1_p2tr"
    scriptpubkey_address := some "bc1pcccc"
    value := some 20 }

/-- A `v1_p2tr` output worth 5 at a `bc1` address. -/
def sampleOutputB : Output :=
  { scriptpubkey := some "5120bb"
    scriptpubkey_asm := some "OP_PUSHNUM_1"
    scriptpubkey_type := some "v1_p2tr"
    scriptpubkey_address := some "bc1pdddd"
    value := some 5 }

/-- A second accepted transaction: fee 20 − 5 = 15. -/
def sampleTxB : Transaction :=
  { version := 2, locktime := 0, vin := [{ prevout := some samplePrevoutB }], vout := [sampleOutputB] }

/-- A concrete block header used to evaluate the mining loop: the fields
the driver fixes (version 1, all-zero previous hash, the source's `bits`
string, nonce 0), an arbitrary 64-hex-digit merkle root and a fixed
timestamp. -/
def demoHeader : BlockHeader :=
  { version := 1
    prevBlockHash := "0000000000000000000000000000000000000000000000000000000000000000"
    merkleRoot := "aaaaaaaaaaaaaaaaaaaaaaaaaaaaaaaaaaaaaaaaaaaaaaaaaaaaaaaaaaaaaaaa"
    timestamp := 1712000000
    bits := "0000ffff00000000000000000000000000000000000000000000000000000000"
    nonce := 0 }

/-- `demoHeader` with only the nonce changed to 1. -/
def demoHeaderNonce1 : BlockHeader :=
  { demoHeader with nonce := 1 }

/-- The double-SHA-256 hex digest of `demoHeader`'s header buffer. -/
def demoDigest : String :=
  "04889771b8db8ffa7d3a8b56bc740fa0a0dfa93347b5a094c8caaa8aebba984e"

/-! ## Sanity checks of the embedding -/

/-- SHA-256 embedding against the FIPS 180-4 test vector for `"abc"`. -/
theorem sha256_test_vector :
    bytesToHex (sha256 (utf8Bytes "abc")) =
      "ba7816bf8f01cfea414140de5dae2223b00361a396177a9cb410ff61f20015ad" := by
  decide

/-- Node hex decoding drops a trailing lone nibble: `"123"` decodes to the
single byte `0x12`, and a one-character string decodes to nothing. -/
theorem hexDecode_node_semantics :
    hexDecode "123" = [18] ∧ hexDecode "1" = [] ∧ hexDecode "0" = [] := by
  decide

/-- The double-SHA-256 of `demoHeader`'s buffer is `demoDigest`. -/
theorem demoDigest_eq : getBlockHash demoHeader = demoDigest := by
  decide

/-! ## Helper lemmas -/

/-- `natToBytesBE` produces exactly the requested number of bytes. -/
theorem natToBytesBE_length : ∀ len n, (natToBytesBE len n).length = len
  | 0, _ => rfl
  | len + 1, n => by simp [natToBytesBE, natToBytesBE_length len]

/-- A SHA-256 digest is never empty. -/
theorem sha256_ne_nil (msg : List Nat) : sha256 msg ≠ [] := by
  intro h
  have := congrArg List.length h
  simp [sha256, natToBytesBE_length] at this

/-- The hex rendering of a non-empty byte list is a non-empty string. -/
theorem bytesToHex_ne_empty (bs : List Nat) (h : bs ≠ []) : bytesToHex bs ≠ "" := by
  cases bs with
  | nil => exact absurd rfl h
  | cons b rest =>
    intro hc
    have : (bytesToHex (b :: rest)).data = ("" : String).data := congrArg String.data hc
    simp [bytesToHex] at this

/-- A combined hash is never the empty string (so the `|| hash1` fallback
never fires on it). -/
theorem combineHash_ne_empty (a b : String) : combineHash a b ≠ "" :=
  bytesToHex_ne_empty _ (sha256_ne_nil _)

/-- One reduction level has exactly ⌈n/2⌉ hashes. -/
theorem merkleLevel_length : ∀ hs : List String, (merkleLevel hs).length = (hs.length + 1) / 2
  | [] => by simp [merkleLevel]
  | [h] => by simp [merkleLevel]
  | h1 :: h2 :: rest => by
    simp [merkleLevel, merkleLevel_length rest]
    omega

/-- A reduction level of a non-empty list is non-empty. -/
theorem merkleLevel_ne_nil (hs : List String) (h : hs ≠ []) : merkleLevel hs ≠ [] := by
  intro hc
  have hl := merkleLevel_length hs
  rw [hc] at hl
  cases hs with
  | nil => exact h rfl
  | cons a t => simp at hl; omega

/-- On the empty list every level is empty, so no amount of fuel produces
a result: the source recursion never reaches its base case. -/
theorem merkleRootFuel_nil : ∀ n, merkleRootFuel n ([] : List String) = none
  | 0 => rfl
  | n + 1 => by
    show merkleRootFuel n (merkleLevel []) = none
    simpa [merkleLevel] using merkleRootFuel_nil n

/-- Fuel equal to the list length makes the fuelled recursion succeed on
every non-empty list. -/
theorem merkleRootFuel_isSome : ∀ n (hs : List String), hs ≠ [] → hs.length ≤ n →
    (merkleRootFuel n hs).isSome = true := by
  intro n
  induction n with
  | zero =>
    intro hs hne hlen
    cases hs with
    | nil => exact absurd rfl hne
    | cons a t => simp at hlen
  | succ n ih =>
    intro hs hne hlen
    match hs with
    | [h] => rfl
    | h1 :: h2 :: rest =>
      have hstep : merkleRootFuel (n + 1) (h1 :: h2 :: rest) =
          merkleRootFuel n (merkleLevel (h1 :: h2 :: rest)) := rfl
      rw [hstep]
      refine ih _ (merkleLevel_ne_nil _ (by simp)) ?_
      have := merkleLevel_length (h1 :: h2 :: rest)
      simp at this hlen ⊢
      omega

/-! ## Claim theorems -/

/-- Claim C2 (code evaluated at the failing input): when the Merkle Engine
receives zero transactions, no defined error is raised and no result is
produced — one reduction level maps the empty list to itself, so for every
recursion-depth bound the reduction yields nothing. -/
theorem C2_merkle_empty_diverges :
    merkleLevel [] = [] ∧ (∀ n, merkleRootFuel n ([] : List String) = none) ∧
      getMerkleRoot [] = none :=
  ⟨rfl, merkleRootFuel_nil, rfl⟩

/-- Claim C3: for every block header, `getBlockHash` concatenates the six
field encodings in the fixed order — version, timestamp and nonce by the
decimal-string-then-hex-decode convention, the three hex fields
hex-decoded — double-SHA-256 hashes the concatenation and returns the hex
digest; and the numeric convention is not 4-byte little-endian encoding. -/
theorem C3_headerHash_spec :
    (∀ h : BlockHeader, getBlockHash h = specHeaderHash h) ∧
      decimalHexBytes 1 ≠ le4Bytes 1 :=
  ⟨fun _ => rfl, by decide⟩

/-- Claim C5: the Merkle reduction obeys the duplicate-last-node rule: on
a 3-element level `[a, b, c]` (with `b` a genuine hash, i.e. non-empty,
so the falsy `||` fallback does not fire) the root is the combine-hash of
`combine(a,b)` and `combine(c,c)`. -/
theorem C5_merkle_three (a b c : String) (hb : b ≠ "") :
    merkleRootJS [a, b, c] = some (combineHash (combineHash a b) (combineHash c c)) := by
  show merkleRootFuel 3 [a, b, c] = _
  have h1 : merkleLevel [a, b, c] = [combineHash a b, combineHash c c] := by
    simp [merkleLevel, hb]
  have hstep : merkleRootFuel 3 [a, b, c] = merkleRootFuel 2 (merkleLevel [a, b, c]) := rfl
  rw [hstep, h1]
  have h2 : merkleLevel [combineHash a b, combineHash c c] =
      [combineHash (combineHash a b) (combineHash c c)] := by
    simp [merkleLevel, combineHash_ne_empty]
  have hstep2 : merkleRootFuel 2 [combineHash a b, combineHash c c] =
      merkleRootFuel 1 (merkleLevel [combineHash a b, combineHash c c]) := rfl
  rw [hstep2, h2]
  rfl

/-- Claim C5 witness at concrete hashes. -/
theorem C5_merkle_three_witness :
    merkleRootJS ["aa", "bb", "cc"] =
      some (combineHash (combineHash "aa" "bb") (combineHash "cc" "cc")) :=
  C5_merkle_three "aa" "bb" "cc" (by decide)

/-- Claim C10: the recursive Merkle reduction terminates on every
non-empty list — each level of length n produces ⌈n/2⌉ hashes, strictly
fewer when n ≥ 2, so fuel equal to the list length already suffices —
and it fails precisely on the empty list, where no fuel bound produces a
result. -/
theorem C10_merkle_termination :
    (∀ hs : List String, hs ≠ [] → (merkleRootFuel hs.length hs).isSome = true) ∧
    (∀ hs : List String, 2 ≤ hs.length →
      (merkleLevel hs).length = (hs.length + 1) / 2 ∧ (merkleLevel hs).length < hs.length) ∧
    (∀ n, merkleRootFuel n ([] : List String) = none) := by
  refine ⟨fun hs hne => merkleRootFuel_isSome _ hs hne le_rfl,
    fun hs h2 => ⟨merkleLevel_length hs, ?_⟩, merkleRootFuel_nil⟩
  have := merkleLevel_length hs
  omega

/-- Claim C10 witness at a concrete 3-element list. -/
theorem C10_merkle_termination_witness :
    (merkleRootFuel 3 ["aa", "bb", "cc"]).isSome = true ∧
      (merkleLevel ["aa", "bb", "cc"]).length = 2 ∧ (merkleLevel ["aa", "bb", "cc"]).length < 3 :=
  ⟨C10_merkle_termination.1 ["aa", "bb", "cc"] (by decide),
    (C10_merkle_termination.2.1 ["aa", "bb", "cc"] (by decide)).1,
    (C10_merkle_termination.2.1 ["aa", "bb", "cc"] (by decide)).2⟩

/-- Claim C8: the coinbase builder is a pure function of `totalFees`: a
single input whose synthetic prevout has the all-zero txid and value
`2500000 + totalFees`, and the single fixed hardcoded output of value 0;
no floor is applied, so a negative fee total drives the value negative. -/
theorem C8_coinbase (fees : Int) :
    (coinbaseTransaction fees).vin.map (fun i => i.prevout.bind (fun p => p.txid)) =
      [some "0000000000000000000000000000000000000000000000000000000000000000"] ∧
    (coinbaseTransaction fees).vin.map inputVal = [some (2500000 + fees)] ∧
    (coinbaseTransaction fees).vout = [coinbaseOutput] ∧
    coinbaseOutput.value = some 0 ∧
    (coinbaseTransaction (-2500001)).vin.map inputVal = [some (-1)] :=
  ⟨rfl, rfl, rfl, rfl, rfl⟩

/-- Appending a mapped list of `append` operations concatenates, in order. -/
theorem runFileOps_map_append (f : Transaction → String) :
    ∀ (xs : List Transaction) (s : String),
      runFileOps s (xs.map (fun t => FileOp.append (f t))) =
        xs.foldl (fun acc t => acc ++ f t) s
  | [], _ => rfl
  | x :: xs, s => runFileOps_map_append f xs (s ++ f x)

/-- Claim C9: whatever the file held before, the run overwrites it with
the header line — the six fields space-separated in declared order — then
appends the coinbase line and one serialized line per validated
transaction; the filter keeps the validated transactions in their
original relative order (a sublist). -/
theorem C9_report (prior : String) (h : BlockHeader) (cb : Transaction)
    (txs : List Transaction) :
    runFileOps prior (outputFileOps h cb (validTransactions txs)) =
      (validTransactions txs).foldl (fun acc t => acc ++ (getTransactionString t ++ "\n"))
        ((getBlockHeaderString h ++ "\n") ++ (getTransactionString cb ++ "\n")) ∧
    getBlockHeaderString h =
      toString h.version ++ " " ++ h.prevBlockHash ++ " " ++ h.merkleRoot ++ " " ++
        toString h.timestamp ++ " " ++ h.bits ++ " " ++ toString h.nonce ∧
    List.Sublist (validTransactions txs) txs := by
  refine ⟨?_, rfl, List.filter_sublist _⟩
  exact runFileOps_map_append _ (validTransactions txs) _

/-- The input checks pass exactly when claim C4's per-input predicate holds. -/
theorem checkInput_iff (i : Input) : checkInput i = true ↔ specInputOk i := by
  simp [checkInput, specInputOk, Bool.and_eq_true, Bool.or_eq_true, decide_eq_true_eq,
    Bool.not_eq_true', decide_eq_false_iff_not, not_le, and_assoc]

/-- The output checks pass exactly when claim C4's per-output predicate holds. -/
theorem checkOutput_iff (o : Output) : checkOutput o = true ↔ specOutputOk o := by
  simp [checkOutput, specOutputOk, Bool.and_eq_true, Bool.or_eq_true, decide_eq_true_eq,
    Bool.not_eq_true', decide_eq_false_iff_not, not_le, and_assoc]

/-- Claim C4: `validateTransaction` is true exactly when every input and
every output has an accepted `scriptpubkey_type`, a `bc1`-prefixed address
and a strictly positive value (absent fields defaulting and failing);
empty `vin`/`vout` vacuously pass their side. -/
theorem C4_validate_characterization (t : Transaction) :
    validateTransaction t = true ↔
      (∀ i ∈ t.vin, specInputOk i) ∧ (∀ o ∈ t.vout, specOutputOk o) := by
  simp [validateTransaction, Bool.and_eq_true, List.all_eq_true, checkInput_iff, checkOutput_iff]

/-- A passing input has a present `prevout.value`. -/
theorem inputVal_of_checkInput (i : Input) (h : checkInput i = true) :
    inputVal i = some ((inputVal i).getD 0) := by
  cases hp : i.prevout with
  | none => simp [checkInput, hp, defaultPrevout] at h
  | some p =>
    cases hv : p.value with
    | none => simp [checkInput, hp, hv] at h
    | some v => simp [inputVal, hp, hv]

/-- A passing output has a present `value`. -/
theorem outputVal_of_checkOutput (o : Output) (h : checkOutput o = true) :
    o.value = some (o.value.getD 0) := by
  cases hv : o.value with
  | none => simp [checkOutput, hv] at h
  | some v => simp [hv]

/-- The input half of the fee loop adds the input values. -/
theorem foldl_jsAdd_inputs (l : List Input) (h : ∀ i ∈ l, checkInput i = true) :
    ∀ x : Int, l.foldl (fun a i => jsAdd a (inputVal i)) (some x) =
      some (x + (l.map (fun i => (inputVal i).getD 0)).sum) := by
  induction l with
  | nil => intro x; simp
  | cons i l ih =>
    intro x
    obtain ⟨v, hv⟩ : ∃ v, inputVal i = some v := ⟨_, inputVal_of_checkInput i (h i (by simp))⟩
    simp only [List.foldl_cons, List.map_cons, List.sum_cons, hv, Option.getD_some]
    rw [show jsAdd (some x) (some v) = some (x + v) from rfl]
    rw [ih (fun j hj => h j (by simp [hj]))]
    congr 1
    ring

/-- The output half of the fee loop subtracts the output values. -/
theorem foldl_jsSub_outputs (l : List Output) (h : ∀ o ∈ l, checkOutput o = true) :
    ∀ x : Int, l.foldl (fun a o => jsSub a o.value) (some x) =
      some (x - (l.map (fun o => o.value.getD 0)).sum) := by
  induction l with
  | nil => intro x; simp
  | cons o l ih =>
    intro x
    obtain ⟨v, hv⟩ : ∃ v, o.value = some v := ⟨_, outputVal_of_checkOutput o (h o (by simp))⟩
    simp only [List.foldl_cons, List.map_cons, List.sum_cons, hv, Option.getD_some]
    rw [show jsSub (some x) (some v) = some (x - v) from rfl]
    rw [ih (fun j hj => h j (by simp [hj]))]
    congr 1
    ring

/-- One validated transaction moves the accumulator by its fee delta. -/
theorem addTxFees_valid (t : Transaction) (h : validateTransaction t = true) (x : Int) :
    addTxFees (some x) t = some (x + txInSum t - txOutSum t) := by
  have hsplit : (∀ i ∈ t.vin, checkInput i = true) ∧ (∀ o ∈ t.vout, checkOutput o = true) := by
    simpa [validateTransaction, Bool.and_eq_true, List.all_eq_true] using h
  simp only [addTxFees, txInSum, txOutSum]
  rw [foldl_jsAdd_inputs t.vin hsplit.1 x]
  rw [foldl_jsSub_outputs t.vout hsplit.2]

/-- Folding the fee accumulator over validated transactions from any
start value adds the global input-minus-output delta. -/
theorem foldl_addTxFees_valid (ts : List Transaction)
    (h : ∀ t ∈ ts, validateTransaction t = true) :
    ∀ x : Int, ts.foldl addTxFees (some x) =
      some (x + sumInputValues ts - sumOutputValues ts) := by
  induction ts with
  | nil => intro x; simp [sumInputValues, sumOutputValues]
  | cons t ts ih =>
    intro x
    simp only [List.foldl_cons]
    rw [addTxFees_valid t (h t (by simp)) x]
    rw [ih (fun u hu => h u (by simp [hu]))]
    simp only [sumInputValues, sumOutputValues, List.map_cons, List.sum_cons]
    congr 1
    ring

/-- Claim C6: the accumulator computes Σ input values − Σ output values
globally over a validated sequence, is 0 on the empty sequence, and is
additive over concatenation of validated sequences. -/
theorem C6_fee_accounting :
    totalFeesOf [] = some 0 ∧
    (∀ ts : List Transaction, (∀ t ∈ ts, validateTransaction t = true) →
      totalFeesOf ts = some (sumInputValues ts - sumOutputValues ts)) ∧
    (∀ A B : List Transaction, (∀ t ∈ A, validateTransaction t = true) →
      (∀ t ∈ B, validateTransaction t = true) →
      totalFeesOf (A ++ B) = jsAdd (totalFeesOf A) (totalFeesOf B)) := by
  refine ⟨rfl, ?_, ?_⟩
  · intro ts h
    have := foldl_addTxFees_valid ts h 0
    simpa [totalFeesOf] using this
  · intro A B hA hB
    simp only [totalFeesOf, List.foldl_append]
    rw [foldl_addTxFees_valid A hA 0]
    rw [foldl_addTxFees_valid B hB (0 + sumInputValues A - sumOutputValues A)]
    rw [foldl_addTxFees_valid B hB 0]
    simp only [jsAdd, Option.some.injEq]
    ring

/-- Claim C6 witness: additivity on two concrete validated singletons. -/
theorem C6_fee_accounting_witness :
    totalFeesOf ([sampleTxA] ++ [sampleTxB]) =
      jsAdd (totalFeesOf [sampleTxA]) (totalFeesOf [sampleTxB]) :=
  C6_fee_accounting.2.2 [sampleTxA] [sampleTxB] (by decide) (by decide)

/-- Claim C1 (code evaluated at the failing input): on `demoHeader` the
double-SHA-256 hash exceeds the target as a full-width hex integer, so
the specified loop would continue searching, but the source condition
coerces the hex digest string with JavaScript `ToNumber` (NaN here), the
comparison is false, and the do/while exits after its very first attempt,
leaving nonce 1. -/
theorem C1_mining_loop_bug :
    mineFuel 2 demoHeader = some (demoHeaderNonce1, demoDigest) ∧
    specMineCond demoDigest = true ∧
    jsMineCond demoDigest = false := by
  refine ⟨by decide, by decide, by decide⟩

/-- Claim C7 counterexample: two headers equal in all fields except the
nonce (0 versus 1) whose header hashes coincide, because both nonces'
decimal strings hex-decode to the empty byte sequence. -/
theorem C7_nonce_collision :
    demoHeader.version = demoHeaderNonce1.version ∧
    demoHeader.prevBlockHash = demoHeaderNonce1.prevBlockHash ∧
    demoHeader.merkleRoot = demoHeaderNonce1.merkleRoot ∧
    demoHeader.timestamp = demoHeaderNonce1.timestamp ∧
    demoHeader.bits = demoHeaderNonce1.bits ∧
    demoHeader.nonce ≠ demoHeaderNonce1.nonce ∧
    getBlockHash demoHeader = getBlockHash demoHeaderNonce1 := by
  refine ⟨rfl, rfl, rfl, rfl, rfl, by decide, by decide⟩

/-- Claim C7 (amended): header hashing is deterministic — equal fields
give equal hashes — but changing only the nonce does not in general
change the hash: nonces whose decimal strings hex-decode to the same
bytes (such as 0 and 1) produce identical hashes. -/
theorem C7_hash_determinism :
    (∀ h1 h2 : BlockHeader, h1.version = h2.version → h1.prevBlockHash = h2.prevBlockHash →
      h1.merkleRoot = h2.merkleRoot → h1.timestamp = h2.timestamp → h1.bits = h2.bits →
      h1.nonce = h2.nonce → getBlockHash h1 = getBlockHash h2) ∧
    (∃ h1 h2 : BlockHeader, h1.version = h2.version ∧ h1.prevBlockHash = h2.prevBlockHash ∧
      h1.merkleRoot = h2.merkleRoot ∧ h1.timestamp = h2.timestamp ∧ h1.bits = h2.bits ∧
      h1.nonce ≠ h2.nonce ∧ getBlockHash h1 = getBlockHash h2) := by
  constructor
  · intro h1 h2 hv hp hm ht hb hn
    have he : h1 = h2 := by
      cases h1
      cases h2
      congr 1
    rw [he]
  · exact ⟨demoHeader, demoHeaderNonce1, rfl, rfl, rfl, rfl, rfl, by decide, by decide⟩

/-- Claim C7 witness: the determinism half applied at a concrete header. -/
theorem C7_hash_determinism_witness :
    getBlockHash demoHeader = getBlockHash demoHeader :=
  C7_hash_determinism.1 demoHeader demoHeader rfl rfl rfl rfl rfl rfl
